import Mathlib

/-!
Verification of `pyDNase/scripts/wellington_footprints.py` (pyDNase, v0.1.1).

Shallow embedding conventions:
* Python floats are modelled by `ℚ` (all claims concern exact arithmetic of
  the algorithms, never rounding).
* Python lists become Lean lists; `sorted` is `List.mergeSort`.
* The external collaborators (`pyDNase.footprinting.wellington`,
  `wellington1D`, `fp.calculate`, `fp.footprints`, the BAM reader) are opaque
  parameters bundled in a `Scorer` structure: the script only drives them.
* Fallible code returns `Except`/`Option`; Python 2 value comparison against
  `None` is modelled explicitly (`py2ltNone`).
* File-system side effects of the script are modelled as an explicit trace of
  `FileOp` events, interpreted by `runFS` over the set of existing
  directories.
-/

namespace Wellington

/-- Python `int()` truncation toward zero of a rational (`int(k)` in the
source). -/
def pyTrunc (q : ℚ) : ℤ := if 0 ≤ q then ⌊q⌋ else ⌈q⌉

/-- Lines 89-108 of `wellington_footprints.py`:

```
def percentile(N, percent):
    if not N:
        return None
    N = sorted(N)
    k = (len(N)-1) * percent
    f = math.floor(k)
    c = math.ceil(k)
    if f == c:
        return float(N[int(k)])
    d0 = N[int(f)] * (c-k)
    d1 = N[int(c)] * (k-f)
    return float(d0+d1)
```

`None` becomes `Option.none`.  Indexing uses `List.getD _ _ 0`; Python would
wrap a negative index and raise out of range, but every use below has
`0 ≤ percent ≤ 1`, where all indices are in range `[0, len-1]`. -/
def percentile (N : List ℚ) (percent : ℚ) : Option ℚ :=
  if N = [] then none
  else
    let Ns := N.mergeSort (fun a b => decide (a ≤ b))
    let k : ℚ := ((Ns.length : ℚ) - 1) * percent
    let f : ℤ := ⌊k⌋
    let c : ℤ := ⌈k⌉
    if f = c then some (Ns.getD (pyTrunc k).toNat 0)
    else
      let d0 : ℚ := Ns.getD (pyTrunc (f : ℚ)).toNat 0 * ((c : ℚ) - k)
      let d1 : ℚ := Ns.getD (pyTrunc (c : ℚ)).toNat 0 * (k - (f : ℚ))
      some (d0 + d1)

/-- A heap of Python list objects: the address of a list is its index in
`mem`.  Used to state frame conditions of `percentile` on its caller's
list. -/
structure Store where
  mem : List (List ℚ)
deriving DecidableEq

/-- Dereference an address (out-of-range addresses read as `[]`). -/
def Store.read (s : Store) (a : Nat) : List ℚ := s.mem.getD a []

/-- Allocate a fresh list object, returning the new store and its address. -/
def Store.alloc (s : Store) (v : List ℚ) : Store × Nat :=
  (⟨s.mem ++ [v]⟩, s.mem.length)

/-- `percentile` with its argument passed by reference, as in Python: `aN` is
the address of the caller's list.  `N = sorted(N)` calls `sorted`, which
allocates a fresh sorted copy, and rebinds only the callee-local name `N` to
the new address; no mutating method is ever invoked on the caller's
object. -/
def percentileCall (s : Store) (aN : Nat) (percent : ℚ) : Store × Option ℚ :=
  if s.read aN = [] then (s, none)
  else
    let alloc := s.alloc ((s.read aN).mergeSort (fun a b => decide (a ≤ b)))
    let s1 := alloc.1
    let Ns := s1.read alloc.2
    let k : ℚ := ((Ns.length : ℚ) - 1) * percent
    let f : ℤ := ⌊k⌋
    let c : ℤ := ⌈k⌉
    if f = c then (s1, some (Ns.getD (pyTrunc k).toNat 0))
    else
      let d0 : ℚ := Ns.getD (pyTrunc (f : ℚ)).toNat 0 * ((c : ℚ) - k)
      let d1 : ℚ := Ns.getD (pyTrunc (c : ℚ)).toNat 0 * (k - (f : ℚ))
      (s1, some (d0 + d1))

lemma read_alloc_lt (s : Store) (v : List ℚ) (a : Nat) (h : a < s.mem.length) :
    (s.alloc v).1.read a = s.read a := by
  simp only [Store.alloc, Store.read]
  exact List.getD_append _ _ _ _ h

lemma read_alloc_new (s : Store) (v : List ℚ) :
    (s.alloc v).1.read (s.alloc v).2 = v := by
  simp [Store.alloc, Store.read, List.getD_eq_getElem?_getD]

lemma pyTrunc_of_nonneg (q : ℚ) (h : 0 ≤ q) : pyTrunc q = ⌊q⌋ := by
  simp [pyTrunc, h]

lemma pyTrunc_intCast (z : ℤ) : pyTrunc (z : ℚ) = z := by
  simp only [pyTrunc]
  split
  · exact Int.floor_intCast z
  · exact Int.ceil_intCast z

lemma one_le_length_cast (N : List ℚ) (hN : N ≠ []) : (1 : ℚ) ≤ (N.length : ℚ) := by
  have h : 0 < N.length := List.length_pos.mpr hN
  exact_mod_cast h

/-- Closed form of `percentile` on a nonempty sample and a nonnegative
fraction, phrased over the sorted permutation `N.mergeSort`. -/
lemma percentile_eq (N : List ℚ) (p : ℚ) (hN : N ≠ []) (hp : 0 ≤ p) :
    percentile N p =
      some (if ⌊((N.length : ℚ) - 1) * p⌋ = ⌈((N.length : ℚ) - 1) * p⌉ then
              (N.mergeSort (fun a b => decide (a ≤ b))).getD
                (⌊((N.length : ℚ) - 1) * p⌋).toNat 0
            else
              (N.mergeSort (fun a b => decide (a ≤ b))).getD
                  (⌊((N.length : ℚ) - 1) * p⌋).toNat 0 *
                  ((⌈((N.length : ℚ) - 1) * p⌉ : ℚ) - ((N.length : ℚ) - 1) * p) +
                (N.mergeSort (fun a b => decide (a ≤ b))).getD
                  (⌈((N.length : ℚ) - 1) * p⌉).toNat 0 *
                  (((N.length : ℚ) - 1) * p - (⌊((N.length : ℚ) - 1) * p⌋ : ℚ))) := by
  have hlen : (N.mergeSort (fun a b => decide (a ≤ b))).length = N.length :=
    (List.mergeSort_perm N _).length_eq
  have hk : (0 : ℚ) ≤ ((N.length : ℚ) - 1) * p := by
    have h1 := one_le_length_cast N hN
    nlinarith
  simp only [percentile, if_neg hN, hlen,
    pyTrunc_of_nonneg _ hk, pyTrunc_intCast]
  split <;> rfl

/-- **C5.** `percentile` sorts the sample ascending (below, `N.mergeSort` is
proved to be a sorted permutation of `N`), sets `k = (n-1)*percent`, returns
the `k`-th sorted element when `k` is an integer and otherwise interpolates
`M[⌊k⌋]*(⌈k⌉-k) + M[⌈k⌉]*(k-⌊k⌋)`; on sorted distinct samples
`percentile N 0 = N[0]` and `percentile N 1 = N[n-1]`, and
`percentile [1,2,3,4] 0.5 = 2.5`. -/
theorem percentile_algorithm_and_values :
    (∀ (N : List ℚ) (p : ℚ), N ≠ [] → 0 ≤ p → p ≤ 1 →
      (N.mergeSort (fun a b => decide (a ≤ b))).Perm N ∧
      (N.mergeSort (fun a b => decide (a ≤ b))).Sorted (· ≤ ·) ∧
      percentile N p =
        some (if ⌊((N.length : ℚ) - 1) * p⌋ = ⌈((N.length : ℚ) - 1) * p⌉ then
                (N.mergeSort (fun a b => decide (a ≤ b))).getD
                  (⌊((N.length : ℚ) - 1) * p⌋).toNat 0
              else
                (N.mergeSort (fun a b => decide (a ≤ b))).getD
                    (⌊((N.length : ℚ) - 1) * p⌋).toNat 0 *
                    ((⌈((N.length : ℚ) - 1) * p⌉ : ℚ) - ((N.length : ℚ) - 1) * p) +
                  (N.mergeSort (fun a b => decide (a ≤ b))).getD
                    (⌈((N.length : ℚ) - 1) * p⌉).toNat 0 *
                    (((N.length : ℚ) - 1) * p - (⌊((N.length : ℚ) - 1) * p⌋ : ℚ)))) ∧
    (∀ N : List ℚ, N ≠ [] → N.Sorted (· < ·) →
      percentile N 0 = some (N.getD 0 0) ∧
      percentile N 1 = some (N.getD (N.length - 1) 0)) ∧
    percentile [1, 2, 3, 4] (1 / 2) = some (5 / 2) := by
  refine ⟨?_, ?_, ?_⟩
  · intro N p hN hp0 _
    exact ⟨List.mergeSort_perm N _, List.sorted_mergeSort' N, percentile_eq N p hN hp0⟩
  · intro N hN hsorted
    have hself : N.mergeSort (fun a b => decide (a ≤ b)) = N :=
      List.mergeSort_eq_self (hsorted.imp (fun h => le_of_lt h))
    constructor
    · rw [percentile_eq N 0 hN le_rfl]
      simp [hself]
    · rw [percentile_eq N 1 hN zero_le_one]
      have hcast : ((N.length : ℚ) - 1) * 1 = ((N.length - 1 : ℕ) : ℚ) := by
        have h : 0 < N.length := List.length_pos.mpr hN
        have : ((N.length - 1 : ℕ) : ℚ) = (N.length : ℚ) - 1 := by
          push_cast [Nat.cast_sub h]
          ring
        rw [this]
        ring
      rw [hcast]
      simp [hself, Int.floor_natCast, Int.ceil_natCast]
  · rw [percentile_eq [1, 2, 3, 4] (1 / 2) (by simp) (by norm_num)]
    have hc : ⌈(3 : ℚ) / 2⌉ = 2 := by
      rw [Int.ceil_eq_iff]; norm_num
    norm_num [List.mergeSort, hc, show Int.toNat 2 = 2 from rfl,
      show Int.toNat 1 = 1 from rfl]

/-- Witness for `percentile_algorithm_and_values` at concrete inputs. -/
theorem percentile_algorithm_witness :
    percentile [2, 1] (1 / 2) = some (3 / 2) ∧
    percentile [1, 2, 3] 0 = some 1 ∧ percentile [1, 2, 3] 1 = some 3 := by
  refine ⟨?_, ?_, ?_⟩
  · rw [(percentile_algorithm_and_values.1 [2, 1] (1 / 2) (by simp) (by norm_num)
      (by norm_num)).2.2]
    have hc : ⌈(1 : ℚ) / 2⌉ = 1 := by
      rw [Int.ceil_eq_iff]; norm_num
    norm_num [List.mergeSort, hc]
  · have h := (percentile_algorithm_and_values.2.1 [1, 2, 3] (by simp)
      (by norm_num [List.sorted_cons])).1
    simpa using h
  · have h := (percentile_algorithm_and_values.2.1 [1, 2, 3] (by simp)
      (by norm_num [List.sorted_cons])).2
    simpa using h

/-- **C10.** A call to `percentile` leaves every list object of the caller's
store unchanged (in particular the argument list itself): the sample is
sorted into a freshly allocated list, never in place; and the value returned
through the store-passing semantics agrees with the pure function. -/
theorem percentile_does_not_mutate (s : Store) (aN : Nat) (p : ℚ) :
    (∀ a, a < s.mem.length → (percentileCall s aN p).1.read a = s.read a) ∧
    (percentileCall s aN p).2 = percentile (s.read aN) p := by
  by_cases hN : s.read aN = []
  · constructor
    · intro a _
      simp [percentileCall, hN]
    · simp [percentileCall, percentile, hN]
  · constructor
    · intro a ha
      simp only [percentileCall, if_neg hN, read_alloc_new]
      split <;> exact read_alloc_lt _ _ _ ha
    · simp only [percentileCall, percentile, if_neg hN, read_alloc_new]
      split <;> rfl

/-- Witness for `percentile_does_not_mutate` at a concrete store. -/
theorem percentile_does_not_mutate_witness :
    (percentileCall ⟨[[3, 1, 2]]⟩ 0 (1 / 2)).1.read 0 = Store.read ⟨[[3, 1, 2]]⟩ 0 ∧
    (percentileCall ⟨[[3, 1, 2]]⟩ 0 (1 / 2)).2 =
      percentile (Store.read ⟨[[3, 1, 2]]⟩ 0) (1 / 2) := by
  have h := percentile_does_not_mutate ⟨[[3, 1, 2]]⟩ 0 (1 / 2)
  exact ⟨h.1 0 (by decide), h.2⟩

/-! ## The footprinting pipeline (lines 157-192) -/

/-- A genomic interval as produced by `pyDNase.GenomicIntervalSet`; the
pipeline reads `chromosome` and `startbp` and never mutates intervals. -/
structure GenomicInterval where
  chromosome : String
  startbp : Int
  endbp : Int
deriving DecidableEq

/-- Number of basepairs covered by the interval. -/
def GenomicInterval.size (i : GenomicInterval) : Nat := (i.endbp - i.startbp).toNat

/-- The object returned by `footprinting.wellington` / `wellington1D`: the
interval it was computed for plus the per-basepair score track
(`fp.interval`, `fp.scores` in the source). -/
structure FootprintResult where
  interval : GenomicInterval
  scores : List ℚ
deriving DecidableEq

/-- A footprint call as printed into a BED file (one line per call); opaque
to this pipeline. -/
abbrev FootprintCall := String

/-- The external collaborators of the script (the `pyDNase.footprinting`
scorer together with the BAM `reads` handle, which the script only ever
passes through).

* `wellington`/`wellington1D` model
  `footprinting.wellington(1D)(each, reads, shoulder_sizes, footprint_sizes,
  bonferroni)`.
* `calcFDR fp i` models the array
  `fp.calculate(reads, FDR=True, shoulder_sizes=…, footprint_sizes=…,
  bonferroni=…)[0]` produced by the `i`-th randomised invocation.
* `footprints fp cutoff merge` models `fp.footprints(withCutoff=cutoff,
  merge=merge)`; the cutoff argument is `none` when the Python value
  `None` is passed.
* `mergeDefault` is the default of the collaborator's `merge` keyword, used
  by the call `fp.footprints(withCutoff=fpscore)` in the writer loop. -/
structure Scorer where
  wellington : GenomicInterval → List Int → List Int → Bool → FootprintResult
  wellington1D : GenomicInterval → List Int → List Int → Bool → FootprintResult
  calcFDR : FootprintResult → Nat → List ℚ
  footprints : FootprintResult → Option ℚ → Bool → List FootprintCall
  mergeDefault : Bool

/-- The validated command-line options consumed by the pipeline. -/
structure Args where
  one_dimension : Bool
  bonferroni : Bool
  shoulder_sizes : List Int
  footprint_sizes : List Int
  FDR_cutoff : ℚ
  FDR_iterations : Nat
  FDR_limit : Int
  pv_cutoffs : List Int
  dont_merge_footprints : Bool

/-- CPython 2 semantics of `a < b` when `a` may be `None` and `b` is a
number: `None` compares less than every number.  Models line 178,
`if fdr < args.FDR_limit`. -/
def py2ltNone (a : Option ℚ) (b : ℚ) : Bool :=
  match a with
  | none => true
  | some x => decide (x < b)

/-- Lines 163-166: pick the 1D or 2D Wellington scorer. -/
def scoreInterval (sc : Scorer) (args : Args) (each : GenomicInterval) :
    FootprintResult :=
  if args.one_dimension then
    sc.wellington1D each args.shoulder_sizes args.footprint_sizes args.bonferroni
  else
    sc.wellington each args.shoulder_sizes args.footprint_sizes args.bonferroni

/-- Lines 158-183, the per-interval body of `footprint_regions`.  The source
returns the pair `[fp, fdr_fps]`; the intermediate cutoff `fdr` (a local
variable in the source) is additionally exposed as the middle component so
that theorems can speak about it. -/
def processInterval (sc : Scorer) (args : Args) (each : GenomicInterval) :
    FootprintResult × Option ℚ × List FootprintCall :=
  let fp := scoreInterval sc args each
  let pooled := ((List.range args.FDR_iterations).map (fun i => sc.calcFDR fp i)).flatten
  let fdr := percentile pooled args.FDR_cutoff
  let fdr_fps :=
    if py2ltNone fdr (args.FDR_limit : ℚ) then
      sc.footprints fp fdr (!args.dont_merge_footprints)
    else []
  (fp, fdr, fdr_fps)

/-- Lines 157-185: `footprint_regions(intervals, reads, args)` processes the
intervals of one chunk sequentially, accumulating the per-interval pairs. -/
def footprint_regions (sc : Scorer) (args : Args)
    (intervals : List GenomicInterval) :
    List (FootprintResult × Option ℚ × List FootprintCall) :=
  intervals.map (processInterval sc args)

lemma flatten_chunked_footprint_regions (sc : Scorer) (args : Args)
    (chunks : List (List GenomicInterval)) :
    (chunks.map (footprint_regions sc args)).flatten =
      footprint_regions sc args chunks.flatten := by
  induction chunks with
  | nil => rfl
  | cons c cs ih =>
    simp only [List.map_cons, List.flatten_cons, ih, footprint_regions,
      List.map_append]

/-- **C1.** For every partition of the ordered interval list into chunks, the
concatenation of the per-chunk result lists in chunk-submission order (the
order `pool.map` returns them in, line 192, iterated at lines 195-196)
equals sequential processing of the full list by `footprint_regions`. -/
theorem chunked_results_eq_sequential (sc : Scorer) (args : Args)
    (orderedbychr : List GenomicInterval)
    (chunks : List (List GenomicInterval))
    (hpart : chunks.flatten = orderedbychr) :
    (chunks.map (footprint_regions sc args)).flatten =
      footprint_regions sc args orderedbychr := by
  rw [flatten_chunked_footprint_regions, hpart]

/-- A trivial concrete scorer used to instantiate theorems with
hypotheses. -/
def constScorer : Scorer :=
  ⟨fun each _ _ _ => ⟨each, [0]⟩,
   fun each _ _ _ => ⟨each, [0]⟩,
   fun _ _ => [-30],
   fun _ c _ => ["call:" ++ toString (c.getD 0)],
   true⟩

/-- Default-like arguments used to instantiate theorems with hypotheses. -/
def defaultArgs : Args :=
  ⟨false, false, [35], [11, 13], 1 / 100, 2, -20, [-10], false⟩

/-- A concrete interval used to instantiate theorems with hypotheses. -/
def demoInterval : GenomicInterval := ⟨"chr1", 100, 103⟩

/-- Witness for `chunked_results_eq_sequential`: a concrete 3-interval list
split into two chunks. -/
theorem chunked_results_eq_sequential_witness :
    ([[⟨"chr1", 0, 2⟩], [⟨"chr1", 5, 7⟩, ⟨"chr2", 0, 1⟩]].map
        (footprint_regions constScorer defaultArgs)).flatten =
      footprint_regions constScorer defaultArgs
        [⟨"chr1", 0, 2⟩, ⟨"chr1", 5, 7⟩, ⟨"chr2", 0, 1⟩] :=
  chunked_results_eq_sequential constScorer defaultArgs
    [⟨"chr1", 0, 2⟩, ⟨"chr1", 5, 7⟩, ⟨"chr2", 0, 1⟩]
    [[⟨"chr1", 0, 2⟩], [⟨"chr1", 5, 7⟩, ⟨"chr2", 0, 1⟩]] rfl

/-- **C2.** The cutoff `fdr` computed at lines 169-176 equals the Percentile
Estimator at fraction `FDR_cutoff` applied to the single pooled sample
obtained by concatenating the statistic arrays of exactly `FDR_iterations`
invocations of the scorer's randomised-null computation. -/
theorem fdr_cutoff_is_pooled_percentile (sc : Scorer) (args : Args)
    (each : GenomicInterval) :
    (processInterval sc args each).2.1 =
      percentile
        (((List.range args.FDR_iterations).map
            (fun i => sc.calcFDR (scoreInterval sc args each) i)).flatten)
        args.FDR_cutoff ∧
    ((List.range args.FDR_iterations).map
        (fun i => sc.calcFDR (scoreInterval sc args each) i)).length =
      args.FDR_iterations := by
  exact ⟨rfl, by simp⟩

/-- **C3.** When the computed cutoff is the number `q`, FDR footprints are
extracted (via `fp.footprints(withCutoff=fdr, merge=not
args.dont_merge_footprints)`, line 179) exactly when `q < FDR_limit`, and
otherwise the interval's FDR call list is empty. -/
theorem fdr_calls_iff_below_limit (sc : Scorer) (args : Args)
    (each : GenomicInterval) (q : ℚ)
    (h : (processInterval sc args each).2.1 = some q) :
    (processInterval sc args each).2.2 =
      if q < (args.FDR_limit : ℚ) then
        sc.footprints (scoreInterval sc args each) (some q)
          (!args.dont_merge_footprints)
      else [] := by
  simp only [processInterval] at h ⊢
  rw [h]
  simp only [py2ltNone, decide_eq_true_eq]

/-- Witness for `fdr_calls_iff_below_limit` at a concrete scorer whose
pooled null sample is the constant `-30`. -/
theorem fdr_calls_iff_below_limit_witness :
    (processInterval constScorer defaultArgs demoInterval).2.2 =
      if (-30 : ℚ) < ((defaultArgs.FDR_limit : Int) : ℚ) then
        constScorer.footprints (scoreInterval constScorer defaultArgs demoInterval)
          (some (-30)) (!defaultArgs.dont_merge_footprints)
      else [] := by
  refine fdr_calls_iff_below_limit constScorer defaultArgs demoInterval (-30) ?_
  show percentile [-30, -30] (1 / 100) = some (-30)
  rw [percentile_eq [-30, -30] (1 / 100) (by simp) (by norm_num)]
  have hc : ⌈(1 : ℚ) / 100⌉ = 1 := by
    rw [Int.ceil_eq_iff]; norm_num
  norm_num [List.mergeSort, hc]

/-- A scorer whose randomised-null statistic arrays are all empty, so that
the pooled sample at line 170 is empty, and which returns one call when
`footprints` receives the Python value `None` as its cutoff. -/
def emptyNullScorer : Scorer :=
  ⟨fun each _ _ _ => ⟨each, [0]⟩,
   fun each _ _ _ => ⟨each, [0]⟩,
   fun _ _ => [],
   fun _ c _ => if c = none then ["call-at-None"] else [],
   true⟩

/-- **C4 fails on the code.** With an empty pooled sample, `percentile`
returns `None` (first conjunct, as the claim says), but line 178 compares
`None < args.FDR_limit`, which is `True` in Python 2, so the pipeline passes
the non-numeric `None` into `fp.footprints(withCutoff=fdr, …)` and can
produce a non-empty FDR call list — contradicting "zero FDR footprint calls,
never passing the non-numeric signal to footprint extraction". -/
theorem empty_pooled_sample_passes_none :
    percentile [] (1 / 100) = none ∧
    (processInterval emptyNullScorer defaultArgs demoInterval).2.1 = none ∧
    py2ltNone none ((defaultArgs.FDR_limit : Int) : ℚ) = true ∧
    (processInterval emptyNullScorer defaultArgs demoInterval).2.2 =
      ["call-at-None"] := by
  refine ⟨rfl, rfl, rfl, ?_⟩
  rfl

/-! ## File-system effects of the run (lines 145-151 and 194-214)

Paths are modelled as segment lists: `os.path.join(a, b)` and the source's
`a + "/" + b` both append one segment.  `os.path.relpath` only rewrites the
spelling of the leading directory, identically for every path of the run, so
it is dropped. -/

/-- One file-system action performed by the script. -/
inductive FileOp where
  | mkdir (path : List String)
  | openW (path : List String)
  | openA (path : List String)
  | write (path : List String) (line : String)
  | close (path : List String)
deriving DecidableEq

/-- Line 147: `<outputdir>/<prefix>.WellingtonFootprints.wig`. -/
def wigPath (outdir pfx : String) : List String :=
  [outdir, pfx ++ ".WellingtonFootprints.wig"]

/-- Line 148: `<outputdir>/<prefix>.WellingtonFootprints.FDR.<cutoff>.bed`. -/
def fdrPath (outdir pfx : String) (cutoff : ℚ) : List String :=
  [outdir, pfx ++ ".WellingtonFootprints.FDR." ++ toString cutoff ++ ".bed"]

/-- Line 146: the directory the script CREATES, `os.path.join(outputdir,
"p value cutoffs")` — with spaces. -/
def pvDirCreated (outdir : String) : List String := [outdir, "p value cutoffs"]

/-- Lines 208-210: the directory the per-cutoff BED files are OPENED in,
`os.path.join(outputdir, "p_value_cutoffs")` — with underscores. -/
def pvDirUsed (outdir : String) : List String := [outdir, "p_value_cutoffs"]

/-- Lines 208-210: `<outputdir>/p_value_cutoffs/<prefix>.WellingtonFootprints.<cutoff>.bed`. -/
def pvPath (outdir pfx : String) (cutoff : Int) : List String :=
  [outdir, "p_value_cutoffs",
   pfx ++ ".WellingtonFootprints." ++ toString cutoff ++ ".bed"]

/-- Lines 145-151: create the p-value directory, open the WIG and FDR
handles for writing, print the UCSC track header. -/
def setupTrace (outdir pfx : String) (fdrCutoff : ℚ) : List FileOp :=
  [FileOp.mkdir (pvDirCreated outdir),
   FileOp.openW (wigPath outdir pfx),
   FileOp.openW (fdrPath outdir pfx fdrCutoff),
   FileOp.write (wigPath outdir pfx) "track type=wiggle_0"]

/-- Line 198: the fixedStep header naming chromosome and start position
(including the stray space of the source before `start=`). -/
def wigHeader (fp : FootprintResult) : String :=
  "fixedStep\tchrom=" ++ fp.interval.chromosome ++ "\t start=" ++
    toString fp.interval.startbp ++ "\tstep=1"

/-- Lines 207-213: per interval and per fixed cutoff, open the BED file in
append mode, write every call `fp.footprints(withCutoff=fpscore)` reports,
close it again. -/
def pvBlock (sc : Scorer) (outdir pfx : String) (fp : FootprintResult)
    (fpscore : Int) : List FileOp :=
  [FileOp.openA (pvPath outdir pfx fpscore)] ++
  (sc.footprints fp (some (fpscore : ℚ)) sc.mergeDefault).map
    (fun fpr => FileOp.write (pvPath outdir pfx fpscore) fpr) ++
  [FileOp.close (pvPath outdir pfx fpscore)]

/-- Lines 196-213: what the writer does for one `(fp, fdr_fps)` pair: the
wig header, one wig line per score, one FDR BED line per FDR call, then the
per-cutoff blocks. -/
def intervalTrace (sc : Scorer) (args : Args) (outdir pfx : String)
    (r : FootprintResult × Option ℚ × List FootprintCall) : List FileOp :=
  [FileOp.write (wigPath outdir pfx) (wigHeader r.1)] ++
  r.1.scores.map (fun i => FileOp.write (wigPath outdir pfx) (toString i)) ++
  r.2.2.map (fun fpr => FileOp.write (fdrPath outdir pfx args.FDR_cutoff) fpr) ++
  args.pv_cutoffs.flatMap (pvBlock sc outdir pfx r.1)

/-- Lines 195-214: iterate the chunk results in submission order, then close
the wig handle; `fdrout` is never closed. -/
def writerTrace (sc : Scorer) (args : Args) (outdir pfx : String)
    (result : List (List (FootprintResult × Option ℚ × List FootprintCall))) :
    List FileOp :=
  (result.flatten.map (intervalTrace sc args outdir pfx)).flatten ++
  [FileOp.close (wigPath outdir pfx)]

/-- Lines 145-214 end to end: setup, parallel map over the chunks, ordered
write-out. -/
def runTrace (sc : Scorer) (args : Args) (outdir pfx : String)
    (chunks : List (List GenomicInterval)) : List FileOp :=
  setupTrace outdir pfx args.FDR_cutoff ++
  writerTrace sc args outdir pfx (chunks.map (footprint_regions sc args))

/-- Interpret a trace over the set of existing directories (initially just
the output directory, which validation required to be empty): `makedirs`
adds a directory; opening a file whose parent directory does not exist
raises `IOError`, which aborts the run at that path. -/
def runFS (dirs : List (List String)) : List FileOp → Except (List String) (List (List String))
  | [] => Except.ok dirs
  | op :: rest =>
    match op with
    | FileOp.mkdir d => runFS (d :: dirs) rest
    | FileOp.openW p => if p.dropLast ∈ dirs then runFS dirs rest else Except.error p
    | FileOp.openA p => if p.dropLast ∈ dirs then runFS dirs rest else Except.error p
    | FileOp.write _ _ => runFS dirs rest
    | FileOp.close _ => runFS dirs rest

/-- How many times the trace opens the file at `p` (in either mode). -/
def countOpens (t : List FileOp) (p : List String) : Nat :=
  t.countP (fun op =>
    match op with
    | FileOp.openW q => decide (q = p)
    | FileOp.openA q => decide (q = p)
    | _ => false)

/-- How many times the trace closes the file at `p`. -/
def countCloses (t : List FileOp) (p : List String) : Nat :=
  t.countP (fun op =>
    match op with
    | FileOp.close q => decide (q = p)
    | _ => false)

/-- The lines the trace writes into the file at `p`, in order. -/
def writesTo (t : List FileOp) (p : List String) : List String :=
  t.filterMap (fun op =>
    match op with
    | FileOp.write q line => if q = p then some line else none
    | _ => none)

lemma pvPath_ne_wigPath (outdir pfx : String) (c : Int) :
    pvPath outdir pfx c ≠ wigPath outdir pfx := by
  simp [pvPath, wigPath]

lemma pvPath_ne_fdrPath (outdir pfx : String) (c : Int) (q : ℚ) :
    pvPath outdir pfx c ≠ fdrPath outdir pfx q := by
  simp [pvPath, fdrPath]

lemma fdrPath_ne_wigPath (outdir pfx : String) (q : ℚ) :
    fdrPath outdir pfx q ≠ wigPath outdir pfx := by
  intro h
  have hf : pfx ++ ".WellingtonFootprints.FDR." ++ toString q ++ ".bed" =
      pfx ++ ".WellingtonFootprints.wig" := by
    simpa [fdrPath, wigPath] using h
  have hlen := congrArg String.length hf
  simp only [String.length_append] at hlen
  have h4 : ".bed".length = 4 := rfl
  have h25 : ".WellingtonFootprints.wig".length = 25 := rfl
  have h26 : ".WellingtonFootprints.FDR.".length = 26 := rfl
  omega

lemma writesTo_append (t1 t2 : List FileOp) (p : List String) :
    writesTo (t1 ++ t2) p = writesTo t1 p ++ writesTo t2 p :=
  List.filterMap_append t1 t2 _

lemma writesTo_map_write_self {α : Type} (f : α → String) (l : List α)
    (p : List String) :
    writesTo (l.map (fun a => FileOp.write p (f a))) p = l.map f := by
  induction l with
  | nil => rfl
  | cons x xs ih =>
    simp only [List.map_cons, writesTo, List.filterMap_cons] at ih ⊢
    simp [ih]

lemma writesTo_map_write_other {α : Type} (f : α → String) (l : List α)
    (q p : List String) (h : q ≠ p) :
    writesTo (l.map (fun a => FileOp.write q (f a))) p = [] := by
  induction l with
  | nil => rfl
  | cons x xs ih =>
    simp only [List.map_cons, writesTo, List.filterMap_cons] at ih ⊢
    simp [ih, h]

lemma writesTo_pvBlock_other (sc : Scorer) (outdir pfx : String)
    (fp : FootprintResult) (c : Int) (p : List String)
    (h : pvPath outdir pfx c ≠ p) :
    writesTo (pvBlock sc outdir pfx fp c) p = [] := by
  simp only [pvBlock, writesTo_append, writesTo, List.filterMap_cons,
    List.filterMap_nil]
  simp [h, List.filterMap_map]

lemma writesTo_flatMap_pvBlock_other (sc : Scorer) (outdir pfx : String)
    (fp : FootprintResult) (cs : List Int) (p : List String)
    (h : ∀ c ∈ cs, pvPath outdir pfx c ≠ p) :
    writesTo (cs.flatMap (pvBlock sc outdir pfx fp)) p = [] := by
  induction cs with
  | nil => rfl
  | cons c cs ih =>
    rw [List.flatMap_cons, writesTo_append,
      writesTo_pvBlock_other sc outdir pfx fp c p (h c (by simp)),
      ih (fun x hx => h x (by simp [hx]))]
    rfl

/-- **C9.** One writer pass over an interval result writes to the score
track exactly one header line (naming the chromosome and start position)
followed by one line per score, in score order; under the collaborator
invariant that the score sequence aligns 1:1 with the interval's basepairs,
the number of score lines equals the interval's length. -/
theorem wig_track_per_interval (sc : Scorer) (args : Args) (outdir pfx : String)
    (r : FootprintResult × Option ℚ × List FootprintCall)
    (hlen : r.1.scores.length = r.1.interval.size) :
    writesTo (intervalTrace sc args outdir pfx r) (wigPath outdir pfx) =
      wigHeader r.1 :: r.1.scores.map (fun i => toString i) ∧
    (writesTo (intervalTrace sc args outdir pfx r) (wigPath outdir pfx)).length =
      1 + r.1.interval.size ∧
    wigHeader r.1 = "fixedStep\tchrom=" ++ r.1.interval.chromosome ++
      "\t start=" ++ toString r.1.interval.startbp ++ "\tstep=1" := by
  have h1 : writesTo (intervalTrace sc args outdir pfx r) (wigPath outdir pfx) =
      wigHeader r.1 :: r.1.scores.map (fun i => toString i) := by
    rw [intervalTrace, writesTo_append, writesTo_append, writesTo_append,
      writesTo_map_write_self,
      writesTo_map_write_other _ _ _ _ (fdrPath_ne_wigPath outdir pfx args.FDR_cutoff),
      writesTo_flatMap_pvBlock_other sc outdir pfx r.1 args.pv_cutoffs _
        (fun c _ => pvPath_ne_wigPath outdir pfx c)]
    simp [writesTo]
  refine ⟨h1, ?_, rfl⟩
  rw [h1]
  simp [hlen, Nat.add_comm]

/-- Witness for `wig_track_per_interval`: a 3-basepair interval with a
3-score track yields 1 + 3 score-file lines. -/
theorem wig_track_per_interval_witness :
    (writesTo
        (intervalTrace constScorer defaultArgs "out" "p"
          (⟨⟨"chr1", 100, 103⟩, [1, 2, 3]⟩, none, []))
        (wigPath "out" "p")).length = 1 + 3 :=
  ((wig_track_per_interval constScorer defaultArgs "out" "p"
      (⟨⟨"chr1", 100, 103⟩, [1, 2, 3]⟩, none, []) (by decide)).2.1).trans rfl

lemma countOpens_append (t1 t2 : List FileOp) (p : List String) :
    countOpens (t1 ++ t2) p = countOpens t1 p + countOpens t2 p :=
  List.countP_append _ t1 t2

lemma countCloses_append (t1 t2 : List FileOp) (p : List String) :
    countCloses (t1 ++ t2) p = countCloses t1 p + countCloses t2 p :=
  List.countP_append _ t1 t2

lemma countOpens_map_write {α : Type} (f : α → String) (l : List α)
    (q p : List String) :
    countOpens (l.map (fun a => FileOp.write q (f a))) p = 0 := by
  induction l with
  | nil => rfl
  | cons x xs ih => simp [countOpens, List.countP_cons, ih]

lemma countCloses_map_write {α : Type} (f : α → String) (l : List α)
    (q p : List String) :
    countCloses (l.map (fun a => FileOp.write q (f a))) p = 0 := by
  induction l with
  | nil => rfl
  | cons x xs ih => simp [countCloses, List.countP_cons, ih]

lemma countOpens_pvBlock (sc : Scorer) (outdir pfx : String)
    (fp : FootprintResult) (c : Int) (p : List String) :
    countOpens (pvBlock sc outdir pfx fp c) p =
      if pvPath outdir pfx c = p then 1 else 0 := by
  simp only [pvBlock, countOpens_append, countOpens_map_write]
  simp [countOpens, List.countP_cons]

lemma countCloses_pvBlock (sc : Scorer) (outdir pfx : String)
    (fp : FootprintResult) (c : Int) (p : List String) :
    countCloses (pvBlock sc outdir pfx fp c) p =
      if pvPath outdir pfx c = p then 1 else 0 := by
  simp only [pvBlock, countCloses_append, countCloses_map_write]
  simp [countCloses, List.countP_cons]

lemma countOpens_flatMap_pvBlock (sc : Scorer) (outdir pfx : String)
    (fp : FootprintResult) (cs : List Int) (p : List String) :
    countOpens (cs.flatMap (pvBlock sc outdir pfx fp)) p =
      (cs.map (fun c => if pvPath outdir pfx c = p then 1 else 0)).sum := by
  induction cs with
  | nil => rfl
  | cons c cs ih =>
    rw [List.flatMap_cons, countOpens_append, countOpens_pvBlock, ih,
      List.map_cons, List.sum_cons]

lemma countCloses_flatMap_pvBlock (sc : Scorer) (outdir pfx : String)
    (fp : FootprintResult) (cs : List Int) (p : List String) :
    countCloses (cs.flatMap (pvBlock sc outdir pfx fp)) p =
      (cs.map (fun c => if pvPath outdir pfx c = p then 1 else 0)).sum := by
  induction cs with
  | nil => rfl
  | cons c cs ih =>
    rw [List.flatMap_cons, countCloses_append, countCloses_pvBlock, ih,
      List.map_cons, List.sum_cons]

lemma countOpens_intervalTrace (sc : Scorer) (args : Args) (outdir pfx : String)
    (r : FootprintResult × Option ℚ × List FootprintCall) (p : List String) :
    countOpens (intervalTrace sc args outdir pfx r) p =
      (args.pv_cutoffs.map (fun c => if pvPath outdir pfx c = p then 1 else 0)).sum := by
  rw [intervalTrace, countOpens_append, countOpens_append, countOpens_append,
    countOpens_map_write, countOpens_map_write, countOpens_flatMap_pvBlock]
  simp [countOpens, List.countP_cons]

lemma countCloses_intervalTrace (sc : Scorer) (args : Args) (outdir pfx : String)
    (r : FootprintResult × Option ℚ × List FootprintCall) (p : List String) :
    countCloses (intervalTrace sc args outdir pfx r) p =
      (args.pv_cutoffs.map (fun c => if pvPath outdir pfx c = p then 1 else 0)).sum := by
  rw [intervalTrace, countCloses_append, countCloses_append, countCloses_append,
    countCloses_map_write, countCloses_map_write, countCloses_flatMap_pvBlock]
  simp [countCloses, List.countP_cons]

lemma sum_map_const_nat {α : Type} (l : List α) (n : Nat) :
    (l.map (fun _ => n)).sum = l.length * n := by
  induction l with
  | nil => simp
  | cons x xs ih => simp [ih, Nat.succ_mul, Nat.add_comm]

lemma countOpens_flatten_intervalTraces (sc : Scorer) (args : Args)
    (outdir pfx : String)
    (rs : List (FootprintResult × Option ℚ × List FootprintCall))
    (p : List String) :
    countOpens ((rs.map (intervalTrace sc args outdir pfx)).flatten) p =
      rs.length *
        (args.pv_cutoffs.map (fun c => if pvPath outdir pfx c = p then 1 else 0)).sum := by
  rw [countOpens, List.countP_flatten, List.map_map]
  have h : (List.countP _ ∘ intervalTrace sc args outdir pfx) =
      fun r => countOpens (intervalTrace sc args outdir pfx r) p := rfl
  rw [h]
  calc (rs.map fun r => countOpens (intervalTrace sc args outdir pfx r) p).sum
      = (rs.map fun _ =>
          (args.pv_cutoffs.map
            (fun c => if pvPath outdir pfx c = p then 1 else 0)).sum).sum := by
        congr 1
        exact List.map_congr_left (fun r _ => countOpens_intervalTrace sc args outdir pfx r p)
    _ = _ := sum_map_const_nat rs _

lemma countCloses_flatten_intervalTraces (sc : Scorer) (args : Args)
    (outdir pfx : String)
    (rs : List (FootprintResult × Option ℚ × List FootprintCall))
    (p : List String) :
    countCloses ((rs.map (intervalTrace sc args outdir pfx)).flatten) p =
      rs.length *
        (args.pv_cutoffs.map (fun c => if pvPath outdir pfx c = p then 1 else 0)).sum := by
  rw [countCloses, List.countP_flatten, List.map_map]
  have h : (List.countP _ ∘ intervalTrace sc args outdir pfx) =
      fun r => countCloses (intervalTrace sc args outdir pfx r) p := rfl
  rw [h]
  calc (rs.map fun r => countCloses (intervalTrace sc args outdir pfx r) p).sum
      = (rs.map fun _ =>
          (args.pv_cutoffs.map
            (fun c => if pvPath outdir pfx c = p then 1 else 0)).sum).sum := by
        congr 1
        exact List.map_congr_left (fun r _ => countCloses_intervalTrace sc args outdir pfx r p)
    _ = _ := sum_map_const_nat rs _

lemma length_results_flatten (sc : Scorer) (args : Args)
    (chunks : List (List GenomicInterval)) :
    ((chunks.map (footprint_regions sc args)).flatten).length =
      chunks.flatten.length := by
  rw [flatten_chunked_footprint_regions, footprint_regions, List.length_map]

lemma countOpens_runTrace (sc : Scorer) (args : Args) (outdir pfx : String)
    (chunks : List (List GenomicInterval)) (p : List String) :
    countOpens (runTrace sc args outdir pfx chunks) p =
      countOpens (setupTrace outdir pfx args.FDR_cutoff) p +
      chunks.flatten.length *
        (args.pv_cutoffs.map (fun c => if pvPath outdir pfx c = p then 1 else 0)).sum := by
  rw [runTrace, writerTrace, countOpens_append, countOpens_append,
    countOpens_flatten_intervalTraces, length_results_flatten]
  have hclose : countOpens [FileOp.close (wigPath outdir pfx)] p = 0 := rfl
  rw [hclose, Nat.add_zero]

lemma countCloses_runTrace (sc : Scorer) (args : Args) (outdir pfx : String)
    (chunks : List (List GenomicInterval)) (p : List String) :
    countCloses (runTrace sc args outdir pfx chunks) p =
      chunks.flatten.length *
        (args.pv_cutoffs.map (fun c => if pvPath outdir pfx c = p then 1 else 0)).sum +
      (if wigPath outdir pfx = p then 1 else 0) := by
  rw [runTrace, writerTrace, countCloses_append, countCloses_append,
    countCloses_flatten_intervalTraces, length_results_flatten]
  have hsetup : countCloses (setupTrace outdir pfx args.FDR_cutoff) p = 0 := rfl
  have hclose : countCloses [FileOp.close (wigPath outdir pfx)] p =
      if wigPath outdir pfx = p then 1 else 0 := by
    simp [countCloses, List.countP_cons]
  rw [hsetup, hclose, Nat.zero_add]

/-- The full lifecycle bookkeeping of the run's output handles, for a run
configured with a single fixed p-value cutoff `c`. -/
lemma handle_counts (sc : Scorer) (args : Args) (outdir pfx : String)
    (chunks : List (List GenomicInterval)) (c : Int)
    (hpv : args.pv_cutoffs = [c]) :
    countOpens (runTrace sc args outdir pfx chunks) (wigPath outdir pfx) = 1 ∧
    countOpens (runTrace sc args outdir pfx chunks)
      (fdrPath outdir pfx args.FDR_cutoff) = 1 ∧
    countOpens (runTrace sc args outdir pfx chunks) (pvPath outdir pfx c) =
      chunks.flatten.length ∧
    countCloses (runTrace sc args outdir pfx chunks) (wigPath outdir pfx) = 1 ∧
    countCloses (runTrace sc args outdir pfx chunks)
      (fdrPath outdir pfx args.FDR_cutoff) = 0 ∧
    countCloses (runTrace sc args outdir pfx chunks) (pvPath outdir pfx c) =
      chunks.flatten.length := by
  have hwf := fdrPath_ne_wigPath outdir pfx args.FDR_cutoff
  have hpw := pvPath_ne_wigPath outdir pfx c
  have hpf := pvPath_ne_fdrPath outdir pfx c args.FDR_cutoff
  refine ⟨?_, ?_, ?_, ?_, ?_, ?_⟩
  · rw [countOpens_runTrace, hpv]
    simp [setupTrace, countOpens, List.countP_cons, hwf, hpw]
  · rw [countOpens_runTrace, hpv]
    simp [setupTrace, countOpens, List.countP_cons, hwf.symm, hpf]
  · rw [countOpens_runTrace, hpv]
    simp [setupTrace, countOpens, List.countP_cons, hwf.symm, hpw.symm, hpf.symm]
  · rw [countCloses_runTrace, hpv]
    simp [hpw]
  · rw [countCloses_runTrace, hpv]
    simp [hpf, hwf.symm]
  · rw [countCloses_runTrace, hpv]
    simp [hpw.symm]

/-- **C7 fails on the code**: with two intervals and one fixed cutoff, the
fixed-cutoff BED file is opened twice (once per interval, lines 208-213),
not exactly once; and the FDR handle is never closed. -/
theorem pv_file_reopened_counterexample :
    countOpens (runTrace constScorer defaultArgs "out" "p"
        [[⟨"chr1", 0, 1⟩, ⟨"chr1", 5, 6⟩]]) (pvPath "out" "p" (-10)) = 2 ∧
    ¬ countOpens (runTrace constScorer defaultArgs "out" "p"
        [[⟨"chr1", 0, 1⟩, ⟨"chr1", 5, 6⟩]]) (pvPath "out" "p" (-10)) = 1 ∧
    countCloses (runTrace constScorer defaultArgs "out" "p"
        [[⟨"chr1", 0, 1⟩, ⟨"chr1", 5, 6⟩]])
      (fdrPath "out" "p" defaultArgs.FDR_cutoff) = 0 := by
  have h := handle_counts constScorer defaultArgs "out" "p"
    [[⟨"chr1", 0, 1⟩, ⟨"chr1", 5, 6⟩]] (-10) rfl
  refine ⟨h.2.2.1.trans rfl, ?_, h.2.2.2.2.1⟩
  rw [h.2.2.1.trans rfl]
  decide

/-- **C7 amended.** The wig and FDR handles are opened exactly once for the
run, before result iteration; the wig handle is closed exactly once, after
the last interval; the FDR handle is never explicitly closed; and the fixed
cutoff's BED file is opened and closed once per interval (reopened each
time), not once per run. -/
theorem handle_lifecycle (sc : Scorer) (args : Args) (outdir pfx : String)
    (chunks : List (List GenomicInterval)) (c : Int)
    (hpv : args.pv_cutoffs = [c]) :
    countOpens (runTrace sc args outdir pfx chunks) (wigPath outdir pfx) = 1 ∧
    countOpens (runTrace sc args outdir pfx chunks)
      (fdrPath outdir pfx args.FDR_cutoff) = 1 ∧
    countOpens (runTrace sc args outdir pfx chunks) (pvPath outdir pfx c) =
      chunks.flatten.length ∧
    countCloses (runTrace sc args outdir pfx chunks) (wigPath outdir pfx) = 1 ∧
    countCloses (runTrace sc args outdir pfx chunks)
      (fdrPath outdir pfx args.FDR_cutoff) = 0 ∧
    countCloses (runTrace sc args outdir pfx chunks) (pvPath outdir pfx c) =
      chunks.flatten.length :=
  handle_counts sc args outdir pfx chunks c hpv

/-- Witness for `handle_lifecycle` at a concrete 2-interval run. -/
theorem handle_lifecycle_witness :
    countOpens (runTrace constScorer defaultArgs "out" "p"
        [[⟨"chr1", 0, 1⟩], [⟨"chr1", 5, 6⟩]]) (wigPath "out" "p") = 1 ∧
    countCloses (runTrace constScorer defaultArgs "out" "p"
        [[⟨"chr1", 0, 1⟩], [⟨"chr1", 5, 6⟩]]) (pvPath "out" "p" (-10)) = 2 := by
  have h := handle_lifecycle constScorer defaultArgs "out" "p"
    [[⟨"chr1", 0, 1⟩], [⟨"chr1", 5, 6⟩]] (-10) rfl
  exact ⟨h.1, h.2.2.2.2.2.trans rfl⟩

lemma runFS_append (dirs : List (List String)) (t1 t2 : List FileOp) :
    runFS dirs (t1 ++ t2) =
      match runFS dirs t1 with
      | Except.ok dirs2 => runFS dirs2 t2
      | Except.error e => Except.error e := by
  induction t1 generalizing dirs with
  | nil => simp [runFS]
  | cons op rest ih =>
    cases op with
    | mkdir d =>
      simp only [List.cons_append, runFS]
      exact ih _
    | openW p =>
      simp only [List.cons_append, runFS]
      split
      · exact ih _
      · rfl
    | openA p =>
      simp only [List.cons_append, runFS]
      split
      · exact ih _
      · rfl
    | write p line =>
      simp only [List.cons_append, runFS]
      exact ih _
    | close p =>
      simp only [List.cons_append, runFS]
      exact ih _

lemma runFS_append_ok (dirs dirs2 : List (List String)) (t1 t2 : List FileOp)
    (h : runFS dirs t1 = Except.ok dirs2) :
    runFS dirs (t1 ++ t2) = runFS dirs2 t2 := by
  rw [runFS_append, h]

lemma runFS_append_error (dirs : List (List String)) (t1 t2 : List FileOp)
    (e : List String) (h : runFS dirs t1 = Except.error e) :
    runFS dirs (t1 ++ t2) = Except.error e := by
  rw [runFS_append, h]

lemma runFS_map_write {α : Type} (dirs : List (List String)) (f : α → String)
    (q : List String) (l : List α) :
    runFS dirs (l.map (fun a => FileOp.write q (f a))) = Except.ok dirs := by
  induction l with
  | nil => rfl
  | cons x xs ih =>
    simp only [List.map_cons, runFS]
    exact ih

lemma runFS_setup (outdir pfx : String) (q : ℚ) :
    runFS [[outdir]] (setupTrace outdir pfx q) =
      Except.ok [pvDirCreated outdir, [outdir]] := by
  simp [setupTrace, runFS, wigPath, fdrPath, pvDirCreated, List.dropLast]

/-- The directory the per-cutoff files are opened in is exactly the one the
script never creates. -/
lemma pvDirUsed_not_created (outdir : String) :
    pvDirUsed outdir ∉ [pvDirCreated outdir, [outdir]] := by
  simp [pvDirUsed, pvDirCreated]

lemma runFS_pvBlock_error (sc : Scorer) (outdir pfx : String)
    (fp : FootprintResult) (c : Int) (rest : List FileOp)
    (dirs : List (List String)) (h : pvDirUsed outdir ∉ dirs) :
    runFS dirs (pvBlock sc outdir pfx fp c ++ rest) =
      Except.error (pvPath outdir pfx c) := by
  have hd : (pvPath outdir pfx c).dropLast = pvDirUsed outdir := rfl
  simp [pvBlock, runFS, hd, h]

lemma runFS_intervalTrace_error (sc : Scorer) (args : Args)
    (outdir pfx : String) (r : FootprintResult × Option ℚ × List FootprintCall)
    (c : Int) (cs : List Int) (dirs : List (List String))
    (hpv : args.pv_cutoffs = c :: cs) (h : pvDirUsed outdir ∉ dirs) :
    runFS dirs (intervalTrace sc args outdir pfx r) =
      Except.error (pvPath outdir pfx c) := by
  have h1 : runFS dirs
      ([FileOp.write (wigPath outdir pfx) (wigHeader r.1)] ++
        r.1.scores.map (fun i => FileOp.write (wigPath outdir pfx) (toString i))) =
      Except.ok dirs := by
    rw [runFS_append_ok dirs dirs
      [FileOp.write (wigPath outdir pfx) (wigHeader r.1)] _ rfl]
    exact runFS_map_write dirs _ _ _
  have h2 : runFS dirs
      ([FileOp.write (wigPath outdir pfx) (wigHeader r.1)] ++
        r.1.scores.map (fun i => FileOp.write (wigPath outdir pfx) (toString i)) ++
        r.2.2.map (fun fpr => FileOp.write (fdrPath outdir pfx args.FDR_cutoff) fpr)) =
      Except.ok dirs := by
    rw [runFS_append_ok dirs dirs _ _ h1]
    exact runFS_map_write dirs (fun x => x) _ _
  rw [intervalTrace, hpv, runFS_append_ok dirs dirs _ _ h2, List.flatMap_cons]
  exact runFS_pvBlock_error sc outdir pfx r.1 c _ dirs h

lemma runFS_run_error (sc : Scorer) (args : Args) (outdir pfx : String)
    (chunks : List (List GenomicInterval)) (i : GenomicInterval)
    (ivs : List GenomicInterval) (c : Int) (cs : List Int)
    (hiv : chunks.flatten = i :: ivs) (hpv : args.pv_cutoffs = c :: cs) :
    runFS [[outdir]] (runTrace sc args outdir pfx chunks) =
      Except.error (pvPath outdir pfx c) := by
  rw [runTrace,
    runFS_append_ok _ _ _ _ (runFS_setup outdir pfx args.FDR_cutoff), writerTrace]
  have hflat : (chunks.map (footprint_regions sc args)).flatten =
      processInterval sc args i :: footprint_regions sc args ivs := by
    rw [flatten_chunked_footprint_regions, hiv]
    rfl
  rw [hflat, List.map_cons, List.flatten_cons, List.append_assoc]
  exact runFS_append_error _ _ _ _
    (runFS_intervalTrace_error sc args outdir pfx _ c cs _ hpv
      (pvDirUsed_not_created outdir))

/-- **C6 fails on the code.** Line 146 creates the directory
`p value cutoffs` (spaces) while lines 208-210 open every fixed-cutoff BED
file under `p_value_cutoffs` (underscores), a directory the run never
creates — the output directory was required to be empty, so the very first
per-cutoff `open(..., "a")` raises `IOError` and no fixed-cutoff file is
ever written. -/
theorem pvalue_dir_mismatch_aborts_run :
    runFS [["out"]] (runTrace constScorer defaultArgs "out" "p" [[demoInterval]]) =
      Except.error (pvPath "out" "p" (-10)) ∧
    (∀ outdir : String, pvDirCreated outdir ≠ pvDirUsed outdir) := by
  constructor
  · exact runFS_run_error constScorer defaultArgs "out" "p" [[demoInterval]]
      demoInterval [] (-10) [] rfl rfl
  · intro outdir
    simp [pvDirCreated, pvDirUsed]

/-! ## Parameter validation (lines 110-139)

Python string primitives are modelled on the character list `String.data`:
`s.split(",")`, `int(s)` (optional sign followed by decimal digits; the
whitespace-stripping of `int()` is irrelevant here) and the indexing
`f[0]`. -/

/-- Value of a decimal digit character (code points 48-57). -/
def charDigit? (c : Char) : Option Nat :=
  if 48 ≤ c.toNat ∧ c.toNat ≤ 57 then some (c.toNat - 48) else none

/-- Accumulate the value of a digit string. -/
def digitsValAux : List Char → Nat → Option Nat
  | [], acc => some acc
  | c :: rest, acc =>
    match charDigit? c with
    | none => none
    | some d => digitsValAux rest (acc * 10 + d)

/-- `int(s)` on a signed decimal literal; `none` models `ValueError`. -/
def pyInt? (s : String) : Option Int :=
  match s.data with
  | [] => none
  | '-' :: ds =>
    if ds = [] then none else (digitsValAux ds 0).map (fun n => -(n : Int))
  | '+' :: ds =>
    if ds = [] then none else (digitsValAux ds 0).map (fun n => (n : Int))
  | ds => (digitsValAux ds 0).map (fun n => (n : Int))

/-- `s.split(",")` on the character list (`"".split(",") == [""]`). -/
def splitOnCommaChars : List Char → List (List Char)
  | [] => [[]]
  | c :: rest =>
    match splitOnCommaChars rest with
    | [] => [[]]
    | g :: gs => if c = ',' then [] :: g :: gs else (c :: g) :: gs

/-- `s.split(",")`. -/
def pySplitComma (s : String) : List String :=
  (splitOnCommaChars s.data).map (fun cs => String.mk cs)

/-- `map(int, tokens)`: the first unparsable token raises `ValueError`. -/
def pyMapInt : List String → Except String (List Int)
  | [] => Except.ok []
  | s :: rest =>
    match pyInt? s with
    | none => Except.error s
    | some v =>
      match pyMapInt rest with
      | Except.error e => Except.error e
      | Except.ok vs => Except.ok (v :: vs)

/-- Length of Python `range(a, b, step)` for `step ≠ 0`. -/
def rangeLen (a b step : Int) : Nat :=
  if 0 < step then ((b - a + step - 1) / step).toNat
  else ((a - b + (-step) - 1) / (-step)).toNat

/-- Elements of Python `range(a, b, step)`. -/
def rangeList (a b step : Int) : List Int :=
  (List.range (rangeLen a b step)).map (fun i => a + (i : Int) * step)

/-- Python `range(a, b, step)`: `ValueError` when `step == 0`. -/
def pyRange (a b step : Int) : Except String (List Int) :=
  if step = 0 then Except.error "range() arg 3 must not be zero"
  else Except.ok (rangeList a b step)

/-- Lines 112-119.  The bare `except:` turns every failure — an unparsable
token, fewer than three tokens (`IndexError` from `l[0]`, `l[1]`, `l[2]`), a
zero step, or an empty resulting range (the failed `assert`) — into
`ValueError`; tokens past the third are ignored by the source. -/
def xrange_from_string (range_string : String) : Except String (List Int) :=
  match pyMapInt (pySplitComma range_string) with
  | Except.error _ => Except.error "ValueError"
  | Except.ok l =>
    match l with
    | a :: b :: st :: _ =>
      match pyRange a b st with
      | Except.error _ => Except.error "ValueError"
      | Except.ok r =>
        if r.length > 0 then Except.ok r else Except.error "ValueError"
    | _ => Except.error "ValueError"

/-- The raw command-line option values before validation. -/
structure RawArgs where
  shoulder_sizes : String
  footprint_sizes : String
  pv_cutoffs : String
  FDR_cutoff : ℚ
  FDR_iterations : Nat
  FDR_limit : Int
  one_dimension : Bool
  bonferroni : Bool
  dont_merge_footprints : Bool

/-- `f[0] == "."` (line 136; `os.listdir` entries are nonempty). -/
def isHidden (f : String) : Bool :=
  match f.data with
  | [] => false
  | ch :: _ => ch = '.'

/-- Lines 121-136 in source order: the two range strings, the p-value cutoff
list, `0 < FDR_cutoff < 1`, `FDR_limit < 0`, and the check that the output
directory holds no entry whose name does not start with `"."`. -/
def validateArgs (a : RawArgs) (listing : List String) : Except String Args :=
  match xrange_from_string a.shoulder_sizes with
  | Except.error _ =>
    Except.error "shoulder and footprint sizes must be supplied as from,to,step"
  | Except.ok sh =>
    match xrange_from_string a.footprint_sizes with
    | Except.error _ =>
      Except.error "shoulder and footprint sizes must be supplied as from,to,step"
    | Except.ok fpr =>
      match pyMapInt (pySplitComma a.pv_cutoffs) with
      | Except.error _ =>
        Except.error "p-value cutoffs must be supplied as a string of numbers"
      | Except.ok pv =>
        if ¬(0 < a.FDR_cutoff ∧ a.FDR_cutoff < 1) then
          Except.error "FDR must be between 0 and 1"
        else if ¬(a.FDR_limit < 0) then
          Except.error "FDR limit must be less than 0"
        else if (listing.filter (fun f => ! isHidden f)).length ≠ 0 then
          Except.error "output directory is not empty!"
        else
          Except.ok ⟨a.one_dimension, a.bonferroni, sh, fpr, a.FDR_cutoff,
            a.FDR_iterations, a.FDR_limit, pv, a.dont_merge_footprints⟩

/-- Is the run aborted? -/
def isErr {ε α : Type} : Except ε α → Bool
  | Except.error _ => true
  | Except.ok _ => false

/-- Lines 121-214 end to end: the assertions (121-136) run before regions
and reads are loaded (142-143), before the output directory and handles are
created (146-148) and before any footprinting; a validation failure aborts
with no file effect and no computation (the error result carries no
trace). -/
def runProgram (sc : Scorer) (a : RawArgs) (listing : List String)
    (outdir pfx : String) (chunks : List (List GenomicInterval)) :
    Except String (List FileOp) :=
  match validateArgs a listing with
  | Except.error e => Except.error e
  | Except.ok args => Except.ok (runTrace sc args outdir pfx chunks)

/-- The first file-system action of a non-aborted run. -/
def firstOp (r : Except String (List FileOp)) : Option FileOp :=
  match r with
  | Except.ok (op :: _) => some op
  | _ => none

/-- The source's default option values. -/
def rawDefaults : RawArgs :=
  ⟨"35,36,1", "11,26,2", "-10,-20", 1 / 100, 100, -20, false, false, false⟩

/-- **C8 fails on the code**: a non-empty output directory whose entries all
start with `"."` passes the emptiness check (line 136 ignores hidden
entries), so the program proceeds to computation and file creation — its
first action is `makedirs` — instead of aborting. -/
theorem hidden_entries_pass_validation :
    ([".gitkeep"] : List String) ≠ [] ∧
    isErr (runProgram constScorer rawDefaults [".gitkeep"] "out" "p"
      [[demoInterval]]) = false ∧
    firstOp (runProgram constScorer rawDefaults [".gitkeep"] "out" "p"
        [[demoInterval]]) = some (FileOp.mkdir (pvDirCreated "out")) := by
  have hval : validateArgs rawDefaults [".gitkeep"] =
      Except.ok ⟨false, false, [35], [11, 13, 15, 17, 19, 21, 23, 25], 1 / 100,
        100, -20, [-10, -20], false⟩ := by
    have hsh : xrange_from_string rawDefaults.shoulder_sizes =
        Except.ok [35] := rfl
    have hfp : xrange_from_string rawDefaults.footprint_sizes =
        Except.ok [11, 13, 15, 17, 19, 21, 23, 25] := rfl
    have hpv : pyMapInt (pySplitComma rawDefaults.pv_cutoffs) =
        Except.ok [-10, -20] := rfl
    have hflt : (([".gitkeep"] : List String).filter
        (fun f => ! isHidden f)).length = 0 := rfl
    rw [validateArgs, hsh, hfp, hpv]
    norm_num [hflt, rawDefaults]
  refine ⟨by simp, ?_, ?_⟩
  · rw [runProgram, hval]
    rfl
  · rw [runProgram, hval]
    rfl

/-- **C8 amended.** The run aborts — with no computation and no file effect
— exactly on the code's own conditions: a range string the parser rejects
(unparsable token, fewer than three tokens, zero step, or empty resulting
range), an unparsable p-value cutoff list, `FDR_cutoff` outside `(0,1)`, a
non-negative `FDR_limit`, or an output-directory entry whose name does not
start with `"."`; entries starting with `"."` are ignored by the emptiness
check. -/
theorem validation_failures_abort (sc : Scorer) (a : RawArgs)
    (listing : List String) (outdir pfx : String)
    (chunks : List (List GenomicInterval))
    (h : isErr (xrange_from_string a.shoulder_sizes) = true ∨
         isErr (xrange_from_string a.footprint_sizes) = true ∨
         isErr (pyMapInt (pySplitComma a.pv_cutoffs)) = true ∨
         ¬(0 < a.FDR_cutoff ∧ a.FDR_cutoff < 1) ∨
         0 ≤ a.FDR_limit ∨
         (∃ f ∈ listing, isHidden f = false)) :
    isErr (runProgram sc a listing outdir pfx chunks) = true := by
  rw [runProgram]
  cases hv : validateArgs a listing with
  | error e => rfl
  | ok v =>
    exfalso
    rw [validateArgs] at hv
    cases hsh : xrange_from_string a.shoulder_sizes with
    | error e1 =>
      rw [hsh] at hv
      exact Except.noConfusion hv
    | ok sh =>
    rw [hsh] at hv
    cases hfp : xrange_from_string a.footprint_sizes with
    | error e2 =>
      rw [hfp] at hv
      exact Except.noConfusion hv
    | ok fpr =>
    rw [hfp] at hv
    cases hpv : pyMapInt (pySplitComma a.pv_cutoffs) with
    | error e3 =>
      rw [hpv] at hv
      exact Except.noConfusion hv
    | ok pv =>
    rw [hpv] at hv
    replace hv :
        (if ¬(0 < a.FDR_cutoff ∧ a.FDR_cutoff < 1) then
          (Except.error "FDR must be between 0 and 1" : Except String Args)
        else if ¬(a.FDR_limit < 0) then
          Except.error "FDR limit must be less than 0"
        else if (listing.filter (fun f => ! isHidden f)).length ≠ 0 then
          Except.error "output directory is not empty!"
        else
          Except.ok ⟨a.one_dimension, a.bonferroni, sh, fpr, a.FDR_cutoff,
            a.FDR_iterations, a.FDR_limit, pv, a.dont_merge_footprints⟩) =
        Except.ok v := hv
    split at hv
    next hc => exact Except.noConfusion hv
    next hc =>
      split at hv
      next hl => exact Except.noConfusion hv
      next hl =>
        split at hv
        next hd => exact Except.noConfusion hv
        next hd =>
          rcases h with h | h | h | h | h | h
          · rw [hsh] at h
            exact Bool.noConfusion h
          · rw [hfp] at h
            exact Bool.noConfusion h
          · rw [hpv] at h
            exact Bool.noConfusion h
          · exact hc h
          · rw [not_not] at hl
            exact absurd h (not_le.mpr hl)
          · obtain ⟨f, hfmem, hfh⟩ := h
            have hmem : f ∈ listing.filter (fun g => ! isHidden g) :=
              List.mem_filter.mpr ⟨hfmem, by simp [hfh]⟩
            have hpos : 0 < (listing.filter (fun g => ! isHidden g)).length :=
              List.length_pos.mpr (List.ne_nil_of_mem hmem)
            omega

/-- Witness for `validation_failures_abort`: a shoulder-size string with
fewer than three tokens aborts the run. -/
theorem validation_failures_abort_witness :
    isErr (runProgram constScorer
      ⟨"35", "11,26,2", "-10", 1 / 100, 100, -20, false, false, false⟩
      [] "out" "p" [[demoInterval]]) = true :=
  validation_failures_abort constScorer
    ⟨"35", "11,26,2", "-10", 1 / 100, 100, -20, false, false, false⟩
    [] "out" "p" [[demoInterval]] (Or.inl rfl)

end Wellington
